import Mathlib

/-!
# Verification of the LinkedIn post scheduler core (src/index.js, src/config.js)

Shallow embedding of the session-and-post orchestration of the repository.
The JS source keeps all state in the `posted_history.json` ledger (a list of
message strings) and in the browser page; here the ledger is an explicit
`List String` and the page/network environment is a record of booleans saying
which selector waits succeed within their timeouts.  Randomness
(`Math.random()` used for the topic shuffle and for the index into the
unposted messages) is passed in as explicit parameters.  Fallible JS code
(functions that can `throw`) is embedded as `Except`/tagged outcome values.
-/

namespace LinkedInGen

/-- One entry of a topic's array in `content.json`: `{ "message": ... }`. -/
structure PostCandidate where
  message : String
deriving DecidableEq, Repr

/-- JS property access `content.topics[topic]` on the `content.topics`
object — embedded as an association list from topic name to its ordered list
of post candidates (JS object keys are distinct and ordered): first binding
for the key, `none` when the key is absent (JS `undefined`). -/
def lookupTopic : List (String × List PostCandidate) → String → Option (List PostCandidate)
  | [], _ => none
  | (k, v) :: rest, t => if k = t then some v else lookupTopic rest t

/-- The loop of `selectPostContent` over `topicsToTry`: for each topic, filter
its candidates down to `unpostedMessages` (those whose `message` is not in
`postedHistory`, mirroring `!postedHistory.includes(post.message)`) and, when
non-empty, return the message at the random index
(`Math.floor(Math.random() * unpostedMessages.length)` is embedded as
`pick % unpostedMessages.length`, which ranges over the same set of indices);
otherwise move on to the next topic.  In the JS source `topicsToTry` only ever
holds keys of the catalog, so `content.topics[topic]` never yields
`undefined` there; the (unreachable) missing-key case is embedded as the
empty candidate list. -/
def selectFromTopics (catalog : List (String × List PostCandidate)) (postedHistory : List String)
    (pick : Nat) : List String → Option String
  | [] => none
  | topic :: rest =>
    let topicContent := (lookupTopic catalog topic).getD []
    let unpostedMessages := topicContent.filter (fun post => !(postedHistory.contains post.message))
    if 0 < unpostedMessages.length then
      (unpostedMessages.get? (pick % unpostedMessages.length)).map (fun p => p.message)
    else
      selectFromTopics catalog postedHistory pick rest

/-- `selectPostContent` of src/index.js.  `postedHistory` is the list read by
`getPostedHistory()`; `preferredTopic` is the optional `POST_TOPIC`
environment variable (`some t` when set); `shuffled` is the result of
`Object.keys(content.topics).sort(() => 0.5 - Math.random())`, supplied as a
parameter since it is random; `pick` feeds the random index.  Returns the
selected message, or `none` on an unknown preferred topic, an empty topic
list, or full exhaustion. -/
def selectPostContent (catalog : List (String × List PostCandidate)) (postedHistory : List String)
    (preferredTopic : Option String) (shuffled : List String) (pick : Nat) : Option String :=
  let topicsToTry : Option (List String) :=
    match preferredTopic with
    | some specifiedTopic =>
      if lookupTopic catalog specifiedTopic = none then none else some [specifiedTopic]
    | none => some shuffled
  match topicsToTry with
  | none => none
  | some ts => if ts.length = 0 then none else selectFromTopics catalog postedHistory pick ts

theorem lookupTopic_mem {catalog : List (String × List PostCandidate)} {t : String}
    {msgs : List PostCandidate} (h : lookupTopic catalog t = some msgs) : (t, msgs) ∈ catalog := by
  induction catalog with
  | nil => simp [lookupTopic] at h
  | cons p rest ih =>
    obtain ⟨k, v⟩ := p
    by_cases hk : k = t
    · subst hk
      simp [lookupTopic] at h
      subst h
      exact List.mem_cons_self _ _
    · simp [lookupTopic, hk] at h
      exact List.mem_cons_of_mem _ (ih h)

theorem selectFromTopics_not_posted {catalog : List (String × List PostCandidate)}
    {postedHistory : List String} {pick : Nat} {topics : List String} {m : String}
    (h : selectFromTopics catalog postedHistory pick topics = some m) : m ∉ postedHistory := by
  induction topics with
  | nil => simp [selectFromTopics] at h
  | cons topic rest ih =>
    rw [selectFromTopics] at h
    by_cases hpos :
        0 < ((lookupTopic catalog topic).getD [] |>.filter
          (fun post => !(postedHistory.contains post.message))).length
    · simp only [hpos, if_pos] at h
      obtain ⟨p, hp, hpm⟩ := Option.map_eq_some'.mp h
      have hmem := List.get?_mem hp
      have hfilt := List.of_mem_filter hmem
      intro hcontra
      rw [hpm] at hfilt
      simp [hcontra] at hfilt
    · simp only [hpos, if_neg, if_false] at h
      exact ih h

/-- C1: any message returned by `selectPostContent` is absent from the
posted-history list it read, for every catalog, ledger, preferred topic,
shuffle order and random pick. -/
theorem selectPostContent_not_in_history
    (catalog : List (String × List PostCandidate)) (postedHistory : List String)
    (preferredTopic : Option String) (shuffled : List String) (pick : Nat) (m : String)
    (h : selectPostContent catalog postedHistory preferredTopic shuffled pick = some m) :
    m ∉ postedHistory := by
  cases preferredTopic with
  | none =>
    simp only [selectPostContent] at h
    by_cases hlen : shuffled.length = 0
    · rw [if_pos hlen] at h
      exact Option.noConfusion h
    · simp only [if_neg hlen] at h
      exact selectFromTopics_not_posted h
  | some t =>
    simp only [selectPostContent] at h
    by_cases hl : lookupTopic catalog t = none
    · simp [if_pos hl] at h
    · simp only [if_neg hl] at h
      norm_num at h
      exact selectFromTopics_not_posted h

/-- Witness for C1 (the spec's example scenario): catalog
`{"tech": [{"message":"A"},{"message":"B"}]}`, ledger `["A"]` — the selected
message `"B"` is not in the ledger. -/
theorem selectPostContent_not_in_history_witness : "B" ∉ ["A"] :=
  selectPostContent_not_in_history [("tech", [⟨"A"⟩, ⟨"B"⟩])] ["A"] none ["tech"] 0 "B" rfl

/-- C7: an explicitly requested topic that is not a key of the catalog makes
`selectPostContent` return `none` at once (after the `UnknownTopic` console
error), whatever the ledger and the rest of the catalog hold: no other topic
is considered. -/
theorem selectPostContent_unknown_topic
    (catalog : List (String × List PostCandidate)) (postedHistory : List String)
    (t : String) (shuffled : List String) (pick : Nat)
    (h : lookupTopic catalog t = none) :
    selectPostContent catalog postedHistory (some t) shuffled pick = none := by
  simp [selectPostContent, h]

/-- Witness for C7: requesting topic `"career"` against a catalog whose only
key is `"tech"` yields `none`, even though `"tech"` has an unposted message. -/
theorem selectPostContent_unknown_topic_witness :
    selectPostContent [("tech", [⟨"A"⟩])] [] (some "career") ["tech"] 0 = none :=
  selectPostContent_unknown_topic [("tech", [⟨"A"⟩])] [] "career" ["tech"] 0 (by decide)

theorem selectFromTopics_exhausted {catalog : List (String × List PostCandidate)}
    {postedHistory : List String} {pick : Nat}
    (h : ∀ t msgs, (t, msgs) ∈ catalog → ∀ p ∈ msgs, p.message ∈ postedHistory) :
    ∀ topics, selectFromTopics catalog postedHistory pick topics = none := by
  intro topics
  induction topics with
  | nil => rfl
  | cons topic rest ih =>
    simp only [selectFromTopics]
    have hempty : ((lookupTopic catalog topic).getD [] |>.filter
        (fun post => !(postedHistory.contains post.message))) = [] := by
      cases hl : lookupTopic catalog topic with
      | none => simp
      | some msgs =>
        simp only [Option.getD_some]
        rw [List.filter_eq_nil_iff]
        intro p hp
        have hin := h topic msgs (lookupTopic_mem hl) p hp
        simp [hin]
    rw [hempty]
    simpa using ih

/-- C8: when every message of every topic is already in the ledger,
`selectPostContent` returns `none` (the `ContentExhausted` outcome) for every
preferred-topic setting, shuffle and pick — being a total function, it cannot
crash. -/
theorem selectPostContent_content_exhausted
    (catalog : List (String × List PostCandidate)) (postedHistory : List String)
    (preferredTopic : Option String) (shuffled : List String) (pick : Nat)
    (h : ∀ t msgs, (t, msgs) ∈ catalog → ∀ p ∈ msgs, p.message ∈ postedHistory) :
    selectPostContent catalog postedHistory preferredTopic shuffled pick = none := by
  cases preferredTopic with
  | none =>
    by_cases hlen : shuffled.length = 0
    · simp [selectPostContent, hlen]
    · simp [selectPostContent, hlen, selectFromTopics_exhausted h]
  | some t =>
    by_cases hl : lookupTopic catalog t = none
    · simp [selectPostContent, hl]
    · simp [selectPostContent, hl, selectFromTopics_exhausted h]

/-- Witness for C8 (the spec's example scenario): catalog
`{"tech": [{"message":"A"}]}` with ledger `["A"]` yields `none`. -/
theorem selectPostContent_content_exhausted_witness :
    selectPostContent [("tech", [⟨"A"⟩])] ["A"] none ["tech"] 0 = none :=
  selectPostContent_content_exhausted [("tech", [⟨"A"⟩])] ["A"] none ["tech"] 0 (by
    intro t msgs hmem p hp
    simp only [List.mem_singleton, Prod.mk.injEq] at hmem
    obtain ⟨ht, hm⟩ := hmem
    subst hm
    simp only [List.mem_singleton] at hp
    subst hp
    simp)

/-! ## Login and publish steps

The page/network environment of one attempt, embedded as booleans: each field
says whether the corresponding puppeteer operation (a navigation or a
`waitForSelector` with its timeout) completes instead of throwing. -/

/-- Environment of `loginToLinkedIn`: whether each step of the login flow
(typing into `#username` / `#password`, the submit button appearing, and the
`.share-box-feed-entry__trigger` feed-confirmation selector appearing within
the 45 s verification timeout) succeeds. -/
structure LoginEnv where
  usernameFieldPresent : Bool
  passwordFieldPresent : Bool
  submitButtonAppears : Bool
  feedConfirmationAppears : Bool
deriving DecidableEq, Repr

/-- Result of `loginToLinkedIn`: normal return, or the re-thrown
`loginError` (after the screenshot / failure notification side effects). -/
inductive LoginOutcome
  | success
  | failed (reason : String)
deriving DecidableEq, Repr

/-- `loginToLinkedIn` of src/index.js: goto the login page, type both
credentials, click submit, then wait for the feed-confirmation selector; the
first step that times out makes the whole call throw (the catch block
screenshots, notifies, and re-throws). -/
def loginToLinkedIn (env : LoginEnv) : LoginOutcome :=
  if !env.usernameFieldPresent then .failed "username field not found"
  else if !env.passwordFieldPresent then .failed "password field not found"
  else if !env.submitButtonAppears then .failed "submit button timeout"
  else if !env.feedConfirmationAppears then .failed "feed not verified after login"
  else .success

/-- Environment of `createLinkedInPost`: whether the feed navigation, each
selector wait, and the `.artdeco-toast-item--success` toast wait succeed. -/
structure PublishEnv where
  feedNavigates : Bool
  startPostAppears : Bool
  textBoxAppears : Bool
  postButtonAppears : Bool
  successToastAppears : Bool
deriving DecidableEq, Repr

/-- `PublishOutcome` of the spec: `Confirmed` on normal return of
`createLinkedInPost`, `Unconfirmed reason` when it throws. -/
inductive PublishOutcome
  | Confirmed
  | Unconfirmed (reason : String)
deriving DecidableEq, Repr

/-- `createLinkedInPost` of src/index.js: goto the feed, open the composer,
type the message, click the share button, and — in the same
`Promise.all` as the click — wait for the success toast; any failing step
(including a missing toast) throws, which the catch block turns into a
failure notification and a re-throw. -/
def createLinkedInPost (env : PublishEnv) : PublishOutcome :=
  if !env.feedNavigates then .Unconfirmed "feed navigation failed"
  else if !env.startPostAppears then .Unconfirmed "start post control timeout"
  else if !env.textBoxAppears then .Unconfirmed "post textbox timeout"
  else if !env.postButtonAppears then .Unconfirmed "post button timeout"
  else if !env.successToastAppears then .Unconfirmed "success toast not detected"
  else .Confirmed

theorem createLinkedInPost_eq_confirmed (env : PublishEnv) :
    createLinkedInPost env = PublishOutcome.Confirmed ↔
      env.feedNavigates = true ∧ env.startPostAppears = true ∧ env.textBoxAppears = true ∧
        env.postButtonAppears = true ∧ env.successToastAppears = true := by
  obtain ⟨a, b, c, d, e⟩ := env
  cases a <;> cases b <;> cases c <;> cases d <;> cases e <;> simp [createLinkedInPost]

/-- C5: `createLinkedInPost` returns `Confirmed` only when the success toast
was actually observed — never from the mere absence of an error after the
click. -/
theorem createLinkedInPost_confirmed_requires_toast
    (env : PublishEnv) (h : createLinkedInPost env = PublishOutcome.Confirmed) :
    env.successToastAppears = true :=
  ((createLinkedInPost_eq_confirmed env).mp h).2.2.2.2

/-- Witness for C5: in the environment where every step up to and including
the toast succeeds, the run is `Confirmed` and the theorem applies. -/
theorem createLinkedInPost_confirmed_requires_toast_witness :
    (PublishEnv.mk true true true true true).successToastAppears = true :=
  createLinkedInPost_confirmed_requires_toast (PublishEnv.mk true true true true true) rfl

/-! ## Attempt orchestrator -/

/-- `updateHistory` of src/index.js on the persisted ledger value: read the
current history, `push` the message, then try to write the whole list back —
`fs.writeFileSync` sits in a `try` whose `catch` only logs, so on a write
error the file (the durable ledger) keeps its old contents while the caller
continues normally.  `writeSucceeds` says whether the write throws. -/
def updateHistory (writeSucceeds : Bool) (history : List String) (message : String) :
    List String :=
  if writeSucceeds then history ++ [message] else history

/-- How one `postToLinkedIn` call ends: normal return after a confirmed post,
or the thrown error of the phase that failed (content selection, login, or
post creation). -/
inductive AttemptOutcome
  | posted (message : String)
  | contentError
  | loginFailed (reason : String)
  | publishFailed (reason : String)
deriving DecidableEq, Repr

/-- Environment of one `postToLinkedIn` attempt: the randomness feeding
`selectPostContent`, the optional `POST_TOPIC`, the page environments of the
login and publish phases, and whether the `updateHistory` write to
`posted_history.json` succeeds. -/
structure AttemptEnv where
  preferredTopic : Option String
  shuffled : List String
  pick : Nat
  login : LoginEnv
  publish : PublishEnv
  historyWriteSucceeds : Bool

/-- `postToLinkedIn` of src/index.js, acting on the ledger: select content
(`none` → notify and throw), launch the browser, `loginToLinkedIn`,
`createLinkedInPost`, and only after the confirmed publish notify success and
`updateHistory`; any thrown error propagates (the `finally` block only closes
the browser) and leaves the ledger untouched. -/
def postToLinkedIn (catalog : List (String × List PostCandidate)) (history : List String)
    (env : AttemptEnv) : AttemptOutcome × List String :=
  match selectPostContent catalog history env.preferredTopic env.shuffled env.pick with
  | none => (.contentError, history)
  | some postContent =>
    match loginToLinkedIn env.login with
    | .failed r => (.loginFailed r, history)
    | .success =>
      match createLinkedInPost env.publish with
      | .Unconfirmed r => (.publishFailed r, history)
      | .Confirmed =>
        (.posted postContent, updateHistory env.historyWriteSucceeds history postContent)

/-- Counterexample to C2 as stated: in the attempt with catalog
`{"tech": [{"message":"B"}]}`, empty ledger, a fully succeeding page run but
a failing `posted_history.json` write, the publish step returns `Confirmed`
for `"B"` and the attempt reports `posted "B"`, yet the ledger stays empty —
the message was appended nowhere although the publish step returned
`Confirmed` for it in that attempt (`updateHistory`'s catch only logs the
`writeFileSync` error). -/
theorem postToLinkedIn_confirmed_without_append :
    createLinkedInPost ⟨true, true, true, true, true⟩ = PublishOutcome.Confirmed ∧
    (postToLinkedIn [("tech", [⟨"B"⟩])] []
        ⟨none, ["tech"], 0, ⟨true, true, true, true⟩, ⟨true, true, true, true, true⟩,
          false⟩).1 = AttemptOutcome.posted "B" ∧
    (postToLinkedIn [("tech", [⟨"B"⟩])] []
        ⟨none, ["tech"], 0, ⟨true, true, true, true⟩, ⟨true, true, true, true, true⟩,
          false⟩).2 = ([] : List String) :=
  ⟨rfl, rfl, rfl⟩

/-- C2 (amended): in one `postToLinkedIn` attempt the ledger gains a message
exactly when the publish step returned `Confirmed` for that message in that
attempt *and* the history write succeeded: (i) a `posted` outcome means the
publish step confirmed and the ledger is `updateHistory` of exactly that
message; (ii) if the publish step would not confirm, the ledger is
unchanged — in particular a publish failure after content selection leaves
it unchanged; (iii) the ledger is only ever unchanged or, when the write
succeeded, extended by the posted message; (iv) a confirmed publish of the
selected message followed by a successful write does append it. -/
theorem postToLinkedIn_ledger_iff_confirmed
    (catalog : List (String × List PostCandidate)) (history : List String) (env : AttemptEnv) :
    (∀ m, (postToLinkedIn catalog history env).1 = AttemptOutcome.posted m →
        createLinkedInPost env.publish = PublishOutcome.Confirmed ∧
        (postToLinkedIn catalog history env).2 =
          updateHistory env.historyWriteSucceeds history m) ∧
    (createLinkedInPost env.publish ≠ PublishOutcome.Confirmed →
        (postToLinkedIn catalog history env).2 = history) ∧
    ((postToLinkedIn catalog history env).2 = history ∨
      ∃ m, (postToLinkedIn catalog history env).1 = AttemptOutcome.posted m ∧
        env.historyWriteSucceeds = true ∧
        (postToLinkedIn catalog history env).2 = history ++ [m]) ∧
    (∀ m, selectPostContent catalog history env.preferredTopic env.shuffled env.pick = some m →
        loginToLinkedIn env.login = LoginOutcome.success →
        createLinkedInPost env.publish = PublishOutcome.Confirmed →
        env.historyWriteSucceeds = true →
        (postToLinkedIn catalog history env).2 = history ++ [m]) := by
  unfold postToLinkedIn
  cases hsel : selectPostContent catalog history env.preferredTopic env.shuffled env.pick with
  | none => simp
  | some postContent =>
    cases hlog : loginToLinkedIn env.login with
    | failed r => simp
    | success =>
      cases hpub : createLinkedInPost env.publish with
      | Unconfirmed r => simp [hpub]
      | Confirmed =>
        refine ⟨?_, ?_, ?_, ?_⟩
        · intro m hm
          simp only at hm
          cases hm
          exact ⟨rfl, rfl⟩
        · intro hne
          exact absurd rfl hne
        · cases hw : env.historyWriteSucceeds with
          | false => exact Or.inl (by simp [updateHistory, hw])
          | true => exact Or.inr ⟨postContent, rfl, rfl, by simp [updateHistory, hw]⟩
        · intro m hm _ _ hw
          injection hm with hm
          subst hm
          simp [updateHistory, hw]

/-- Witness for C2 (amended): the concrete attempt with catalog
`{"tech": [{"message":"B"}]}`, empty ledger, a fully succeeding page run and
a succeeding history write posts `"B"` and the ledger becomes `["B"]`. -/
theorem postToLinkedIn_ledger_iff_confirmed_witness :
    (postToLinkedIn [("tech", [⟨"B"⟩])] []
      ⟨none, ["tech"], 0, ⟨true, true, true, true⟩, ⟨true, true, true, true, true⟩,
        true⟩).2 = [] ++ ["B"] :=
  (postToLinkedIn_ledger_iff_confirmed [("tech", [⟨"B"⟩])] []
      ⟨none, ["tech"], 0, ⟨true, true, true, true⟩, ⟨true, true, true, true, true⟩,
        true⟩).2.2.2 "B" rfl rfl rfl rfl

/-! ## Retry coordinator -/

/-- One observable action of `runWithRetries`: invoking `postToLinkedIn` for
attempt `k`, sleeping for the computed backoff (recorded in minutes —
`delayMinutes` in the source, converted to milliseconds before the `delay`
call), or sending the all-retries-failed notification. -/
inductive RetryEvent
  | attempt (k : Nat)
  | wait (delayMinutes : Nat)
  | finalNotice
deriving DecidableEq, Repr

/-- `MAX_RETRIES` of `runWithRetries`. -/
def MAX_RETRIES : Nat := 3

/-- `INITIAL_DELAY_MINUTES` of `runWithRetries`. -/
def INITIAL_DELAY_MINUTES : Nat := 1

/-- The `for (let attempt = 1; attempt <= MAX_RETRIES; attempt++)` loop of
`runWithRetries`, producing the trace of observable actions.  `outcome k`
says whether the `postToLinkedIn` call of attempt `k` returns normally
(`true`) or throws (`false`); `remaining` is the number of attempts still
allowed including the current one (`MAX_RETRIES - attempt + 1`), so
`attempt < MAX_RETRIES` is `remaining > 1`.  On success the loop returns at
once; on failure with attempts left it waits
`INITIAL_DELAY_MINUTES * 5 ^ (attempt - 1)` minutes; on the last failure it
sends the terminal notification and the loop ends. -/
def retryFrom (outcome : Nat → Bool) (attempt : Nat) : Nat → List RetryEvent
  | 0 => []
  | remaining + 1 =>
    if outcome attempt then [RetryEvent.attempt attempt]
    else if remaining = 0 then [RetryEvent.attempt attempt, RetryEvent.finalNotice]
    else
      RetryEvent.attempt attempt ::
        RetryEvent.wait (INITIAL_DELAY_MINUTES * 5 ^ (attempt - 1)) ::
          retryFrom outcome (attempt + 1) remaining

/-- `runWithRetries` of src/index.js as the trace of its observable actions,
given the per-attempt outcomes of `postToLinkedIn`. -/
def runWithRetries (outcome : Nat → Bool) : List RetryEvent :=
  retryFrom outcome 1 MAX_RETRIES

/-- The attempt indices at which the orchestrator was invoked, in order. -/
def attemptsMade : List RetryEvent → List Nat
  | [] => []
  | RetryEvent.attempt k :: rest => k :: attemptsMade rest
  | _ :: rest => attemptsMade rest

/-- The backoff wait (in minutes) immediately preceding the first
`attempt k` event of a trace, if any event precedes it and that event is a
wait. -/
def delayBefore (k : Nat) : List RetryEvent → Option Nat
  | [] => none
  | [_] => none
  | a :: b :: rest =>
    if b = RetryEvent.attempt k then
      match a with
      | RetryEvent.wait m => some m
      | _ => none
    else delayBefore k (b :: rest)

theorem runWithRetries_eq (outcome : Nat → Bool) :
    runWithRetries outcome =
      if outcome 1 then [RetryEvent.attempt 1]
      else RetryEvent.attempt 1 :: RetryEvent.wait 1 ::
        (if outcome 2 then [RetryEvent.attempt 2]
         else RetryEvent.attempt 2 :: RetryEvent.wait 5 ::
           (if outcome 3 then [RetryEvent.attempt 3]
            else [RetryEvent.attempt 3, RetryEvent.finalNotice])) := by
  cases h1 : outcome 1 <;> cases h2 : outcome 2 <;> cases h3 : outcome 3 <;>
    simp [runWithRetries, retryFrom, MAX_RETRIES, INITIAL_DELAY_MINUTES, h1, h2, h3]

/-- C3: for every sequence of attempt outcomes, `runWithRetries` invokes the
orchestrator at most `MAX_RETRIES` (3) times, and no invocation follows a
successful one. -/
theorem runWithRetries_bounded_stops_on_success (outcome : Nat → Bool) :
    (attemptsMade (runWithRetries outcome)).length ≤ MAX_RETRIES ∧
    (∀ k ∈ attemptsMade (runWithRetries outcome), outcome k = true →
      ∀ j ∈ attemptsMade (runWithRetries outcome), j ≤ k) := by
  rw [runWithRetries_eq]
  cases h1 : outcome 1 <;> cases h2 : outcome 2 <;> cases h3 : outcome 3 <;>
    simp [attemptsMade, MAX_RETRIES, h1, h2, h3]

/-- Witness for C3: with every attempt succeeding, exactly one invocation is
made and the stop-on-success bound holds at it. -/
theorem runWithRetries_bounded_stops_on_success_witness :
    (attemptsMade (runWithRetries (fun _ => true))).length ≤ MAX_RETRIES ∧ 1 ≤ 1 :=
  ⟨(runWithRetries_bounded_stops_on_success (fun _ => true)).1,
    (runWithRetries_bounded_stops_on_success (fun _ => true)).2 1 (by decide) rfl 1 (by decide)⟩

/-- C4: the backoff wait immediately preceding attempt `k` (2 ≤ k ≤ 3) is
`INITIAL_DELAY_MINUTES * 5 ^ (k - 2)` minutes whenever attempt `k` happens,
and nothing precedes attempt 1 — it is the very first action of the trace. -/
theorem runWithRetries_backoff (outcome : Nat → Bool) :
    (∀ k, 2 ≤ k → k ≤ MAX_RETRIES → RetryEvent.attempt k ∈ runWithRetries outcome →
      delayBefore k (runWithRetries outcome) =
        some (INITIAL_DELAY_MINUTES * 5 ^ (k - 2))) ∧
    delayBefore 1 (runWithRetries outcome) = none ∧
    (runWithRetries outcome).head? = some (RetryEvent.attempt 1) := by
  rw [runWithRetries_eq]
  cases h1 : outcome 1 <;> cases h2 : outcome 2 <;> cases h3 : outcome 3 <;>
    refine ⟨fun k hk2 hk3 hmem => ?_, by simp [delayBefore], by simp⟩ <;>
    simp only [MAX_RETRIES] at hk3 <;>
    interval_cases k <;>
    simp_all [delayBefore, INITIAL_DELAY_MINUTES]

/-- Witness for C4: with every attempt failing, the wait immediately before
attempt 2 is `1 * 5 ^ 0 = 1` minute. -/
theorem runWithRetries_backoff_witness :
    delayBefore 2 (runWithRetries (fun _ => false)) =
      some (INITIAL_DELAY_MINUTES * 5 ^ (2 - 2)) :=
  (runWithRetries_backoff (fun _ => false)).1 2 (by decide) (by decide) (by decide)

/-! ## Notifier -/

/-- Environment of `sendNotification`: which of the three notification
environment variables (`NOTIFICATION_EMAIL`, `NOTIFICATION_PASSWORD`,
`RECIPIENT_EMAIL`) are set, and whether `transporter.sendMail` succeeds. -/
structure NotifyEnv where
  notificationEmailSet : Bool
  notificationPasswordSet : Bool
  recipientEmailSet : Bool
  sendMailSucceeds : Bool
deriving DecidableEq, Repr

/-- How a `sendNotification` call ended: skipped for missing configuration,
mail sent, or a send failure that was caught and logged. -/
inductive NotifyResult
  | skipped
  | sent
  | sendFailureLogged
deriving DecidableEq, Repr

/-- `transporter.sendMail(mailOptions)`: resolves or rejects. -/
def sendMail (env : NotifyEnv) : Except String Unit :=
  if env.sendMailSucceeds then .ok () else .error "sendMail rejected"

/-- `sendNotification` of src/index.js: a missing notification setting is a
warn-and-return no-op; otherwise `sendMail` is awaited inside a `try` whose
`catch` only logs, so the function itself never throws — embedded in
`Except` to make the absence of an escaping error a theorem rather than a
typing accident. -/
def sendNotification (env : NotifyEnv) (_subject _message : String) :
    Except String NotifyResult :=
  if !env.notificationEmailSet || !env.notificationPasswordSet || !env.recipientEmailSet then
    .ok .skipped
  else
    match sendMail env with
    | .ok _ => .ok .sent
    | .error _ => .ok .sendFailureLogged

/-- C9: `sendNotification` never propagates an error to its caller, and with
notification credentials unconfigured it is a silent no-op (`skipped`). -/
theorem sendNotification_never_throws (env : NotifyEnv) (subject message : String) :
    (∃ r, sendNotification env subject message = Except.ok r) ∧
    ((env.notificationEmailSet = false ∨ env.notificationPasswordSet = false ∨
        env.recipientEmailSet = false) →
      sendNotification env subject message = Except.ok NotifyResult.skipped) := by
  obtain ⟨a, b, c, d⟩ := env
  cases a <;> cases b <;> cases c <;> cases d <;> simp [sendNotification, sendMail]

/-- Witness for C9: with `NOTIFICATION_EMAIL` unset (even though sending
would fail), the call is the silent no-op. -/
theorem sendNotification_never_throws_witness :
    sendNotification ⟨false, true, true, false⟩ "LinkedIn Bot" "status" =
      Except.ok NotifyResult.skipped :=
  (sendNotification_never_throws ⟨false, true, true, false⟩ "LinkedIn Bot" "status").2
    (Or.inl rfl)

/-! ## History file reading -/

/-- State of `posted_history.json` as `getPostedHistory` can encounter it:
absent (`fs.existsSync` false), unreadable (`fs.readFileSync` throws), or
present with `JSON.parse` either throwing (`present none`) or producing the
stored list (`present (some h)`). -/
inductive HistoryFileState
  | missing
  | unreadable
  | present (parsed : Option (List String))
deriving DecidableEq, Repr

/-- `getPostedHistory` of src/index.js: the `try` block returns the parsed
file when everything works; a missing file falls through and any read/parse
error is caught, both ending in `return []`.  Total by construction — it can
never throw. -/
def getPostedHistory : HistoryFileState → List String
  | .missing => []
  | .unreadable => []
  | .present none => []
  | .present (some historyData) => historyData

/-- C10: `getPostedHistory` is total over every filesystem state, returns the
empty list whenever the file is absent, unreadable, or unparsable, and the
parsed list when the file holds valid JSON. -/
theorem getPostedHistory_total (fs : HistoryFileState) :
    ((fs = HistoryFileState.missing ∨ fs = HistoryFileState.unreadable ∨
        fs = HistoryFileState.present none) → getPostedHistory fs = []) ∧
    (∀ h, fs = HistoryFileState.present (some h) → getPostedHistory fs = h) := by
  rcases fs with _ | _ | (_ | h) <;> simp [getPostedHistory]

/-- Witness for C10: the missing-file state yields the empty history. -/
theorem getPostedHistory_total_witness : getPostedHistory HistoryFileState.missing = [] :=
  (getPostedHistory_total HistoryFileState.missing).1 (Or.inl rfl)

/-! ## Session Establisher of spec §4.2 (spec-modelled)

The `loginToLinkedIn` functions in src/index.js always perform credential
entry: no revision under src/ implements the session-reuse path.  The
selector and timeout declarations of that missing revision do survive in
src/config.js (`securityCheck`, `feedConfirmation`, the `verification`
timeout), so the state machine itself is modelled from spec §4.2. -/

/-- Modelled from the spec: the observable browser-driver steps of the
Session Establisher of spec §4.2, whose implementing revision is missing
from src/ (only its declarations in src/config.js are present). -/
inductive SessionStep
  | navigateToFeed
  | waitAuthenticatedSelector
  | probeChallengeSelector
  | typeUsername
  | typePassword
  | clickSubmit
  | verificationRace
  | captureScreenshot
  | notifyFailure
deriving DecidableEq, Repr

/-- Modelled from the spec: how the post-credential verification race of
spec §4.2 step 5 resolves within its bounded timeout. -/
inductive VerificationResult
  | successSelectorFirst
  | challengeSelectorFirst
  | timedOut
deriving DecidableEq, Repr

/-- Modelled from the spec: the page environment the Session Establisher
observes — whether the authenticated-landing selector appears within its
short timeout, whether the security-challenge surface is found by the probe,
and how the post-credential verification race resolves. -/
structure SessionEnv where
  authenticatedSelectorFound : Bool
  challengeSelectorFound : Bool
  verification : VerificationResult
deriving DecidableEq, Repr

/-- `SessionOutcome` of the spec data model (§3). -/
inductive SessionOutcome
  | AlreadyAuthenticated
  | FreshLoginSucceeded
  | ChallengeBlocked (reason : String)
  | LoginFailed (reason : String)
deriving DecidableEq, Repr

/-- Modelled from the spec: the Session Establisher state machine of spec
§4.2 — navigate to the authenticated landing surface, return
`AlreadyAuthenticated` if its selector appears, otherwise probe the
challenge surface (`ChallengeBlocked` when found), otherwise enter
credentials and race the verification selectors; failure branches capture a
diagnostic screenshot and notify.  Returns the outcome with the ordered list
of steps performed. -/
def establishSession (env : SessionEnv) : SessionOutcome × List SessionStep :=
  if env.authenticatedSelectorFound then
    (.AlreadyAuthenticated, [.navigateToFeed, .waitAuthenticatedSelector])
  else if env.challengeSelectorFound then
    (.ChallengeBlocked "security challenge surface detected",
      [.navigateToFeed, .waitAuthenticatedSelector, .probeChallengeSelector,
        .captureScreenshot, .notifyFailure])
  else
    let credentialEntry : List SessionStep :=
      [.navigateToFeed, .waitAuthenticatedSelector, .probeChallengeSelector,
        .typeUsername, .typePassword, .clickSubmit, .verificationRace]
    match env.verification with
    | .successSelectorFirst => (.FreshLoginSucceeded, credentialEntry)
    | .challengeSelectorFirst =>
      (.LoginFailed "post-credential challenge",
        credentialEntry ++ [.captureScreenshot, .notifyFailure])
    | .timedOut =>
      (.LoginFailed "verification timeout",
        credentialEntry ++ [.captureScreenshot, .notifyFailure])

/-- C6: when the authenticated-landing selector is found first, the outcome
is `AlreadyAuthenticated` and no credential-entry step runs: neither
username nor password typing occurs anywhere in that run. -/
theorem establishSession_already_authenticated_skips_credentials
    (env : SessionEnv) (h : env.authenticatedSelectorFound = true) :
    (establishSession env).1 = SessionOutcome.AlreadyAuthenticated ∧
    SessionStep.typeUsername ∉ (establishSession env).2 ∧
    SessionStep.typePassword ∉ (establishSession env).2 := by
  simp [establishSession, h]

/-- Witness for C6: a run whose authenticated-landing selector is present
ends `AlreadyAuthenticated`. -/
theorem establishSession_already_authenticated_skips_credentials_witness :
    (establishSession ⟨true, false, VerificationResult.timedOut⟩).1 =
      SessionOutcome.AlreadyAuthenticated :=
  (establishSession_already_authenticated_skips_credentials
    ⟨true, false, VerificationResult.timedOut⟩ rfl).1

end LinkedInGen
